import Mathlib

/-!
Verification of the shape-sorter task generator.

This file gives a shallow embedding of the generator's core (`generator.py`,
`prompts.py`) and proves or refutes the specification's claims about it.
Python floats are modelled as exact rationals (`ℚ`), except for the
trigonometric shape geometry, which is modelled over `ℝ`.  Randomness is
modelled by explicit oracle parameters (for generation attempts and jitter)
or by relational specifications (for `random.sample` / `random.choices`).
-/

/-! ### Constants (generator.py, module level) -/

/-- The six-color palette `COLORS`: name and RGB triple. -/
def COLORS : List (String × (ℕ × ℕ × ℕ)) :=
  [("red", (248, 113, 113)),
   ("yellow", (250, 204, 21)),
   ("blue", (96, 165, 250)),
   ("green", (74, 222, 128)),
   ("purple", (192, 132, 252)),
   ("orange", (251, 146, 60))]

/-- The six-shape vocabulary `SHAPES`. -/
def SHAPES : List String :=
  ["circle", "square", "triangle", "star", "hexagon", "diamond"]

/-- `ShapeSpec`: specification for a shape card (dataclass in generator.py).
Points are canvas coordinates (x, y) with y growing downward. -/
structure ShapeSpec where
  shape : String
  color_name : String
  color_rgb : ℕ × ℕ × ℕ
  start : ℚ × ℚ
  target : ℚ × ℚ
  size : ℚ
  deriving DecidableEq, Repr

/-- A default `ShapeSpec`, used only as the default of `List.getD` lookups
that the theorems' index bounds keep unreachable. -/
def default_spec : ShapeSpec :=
  { shape := "", color_name := "", color_rgb := (0, 0, 0),
    start := (0, 0), target := (0, 0), size := 0 }

/-! ### Prompt formatting (prompts.py) -/

/-- `format_shape_summary` from prompts.py: drop falsy (empty) labels, then
select the sentence form from the number of remaining labels. -/
def format_shape_summary (shape_labels : List String) : String :=
  let labels := shape_labels.filter (fun l => l ≠ "")
  if labels.length = 0 then ""
  else if labels.length = 1 then
    "Match the " ++ labels.getD 0 "" ++ " card to its outline."
  else if labels.length = 2 then
    "Match the " ++ labels.getD 0 "" ++ " card first, followed by the " ++
      labels.getD 1 "" ++ " card."
  else
    "Match the " ++ String.intercalate ", " labels.dropLast ++
      ", and finally the " ++ labels.getLast?.getD "" ++ " card."

/-! ### Layout lookup tables (generator.py, `_layout_columns` / `_layout_jitter`) -/

/-- `_choose_layout`: layout variant from shape count. -/
def choose_layout (count : ℕ) : String :=
  if count ≤ 2 then "line"
  else if count = 3 then "staggered"
  else if count = 4 then "grid"
  else "scatter"

/-- `_layout_columns`: number of columns for a layout and side
(`base.get(layout, 1)` over the dict in the source). -/
def layout_columns (layout side : String) : ℕ :=
  if layout = "line" then 1
  else if layout = "staggered" then (if side = "cards" then 2 else 1)
  else if layout = "grid" then 2
  else if layout = "scatter" then 2
  else 1

/-- `_layout_jitter`: jitter amount for a layout and side
(`jitter_map.get(layout, 0.0)` over the dict in the source). -/
def layout_jitter (layout side : String) : ℚ :=
  if layout = "line" then 0
  else if layout = "staggered" then (if side = "cards" then 15 / 1000 else 0)
  else if layout = "grid" then 1 / 100
  else if layout = "scatter" then (if side = "cards" then 3 / 100 else 15 / 1000)
  else 0

/-! ### Star geometry (generator.py, `_draw_shape`, the `star` branch).
The other branches of `_draw_shape` only draw onto the canvas and are not
needed by any claim; the star branch's vertex computation is embedded here. -/

/-- Vertex list of the 5-point star branch of `_draw_shape`: ten points,
`angle = π/2 + i·π/5`, radius `size/2` for even `i` and `(size/2)·0.45`
for odd `i`, at `(x + r·cos angle, y + r·sin angle)`. -/
noncomputable def star_points (x y size : ℝ) : List (ℝ × ℝ) :=
  (List.range 10).map fun i : ℕ =>
    let angle : ℝ := Real.pi / 2 + (i : ℝ) * Real.pi / 5
    let r : ℝ := if i % 2 = 0 then size / 2 else size / 2 * 0.45
    (x + r * Real.cos angle, y + r * Real.sin angle)

/-- The radius used for the star's `i`-th vertex (outer for even `i`,
inner `0.45 ×` outer for odd `i`). -/
noncomputable def star_radius (size : ℝ) (i : ℕ) : ℝ :=
  if i % 2 = 0 then size / 2 else size / 2 * 0.45

/-! ### Shared list-indexing helper lemmas -/

theorem getD_map_range {α : Type} (n i : ℕ) (f : ℕ → α) (d : α) (h : i < n) :
    ((List.range n).map f).getD i d = f i := by
  rw [List.getD_eq_getElem _ _ (by simpa using h), List.getElem_map]
  simp

theorem getD_map_enum {α β : Type} (l : List α) (i : ℕ) (h : i < l.length)
    (f : ℕ × α → β) (d : β) (dl : α) :
    (l.enum.map f).getD i d = f (i, l.getD i dl) := by
  rw [List.getD_eq_getElem _ _ (by simpa using h), List.getElem_map,
    List.getElem_enum, List.getD_eq_getElem _ _ h]

/-! ### Deduplication signature (generator.py, `_build_signature`) -/

/-- Round a rational to the nearest integer, ties to even (Python `round`). -/
def round_half_even (q : ℚ) : ℤ :=
  let f := ⌊q⌋
  let r := q - f
  if r < 1 / 2 then f
  else if r > 1 / 2 then f + 1
  else if f % 2 = 0 then f else f + 1

/-- Python `round(q, 1)`: round to one decimal digit. -/
def round1 (q : ℚ) : ℚ := (round_half_even (10 * q) : ℚ) / 10

/-- The quantized per-spec tuple built in `_build_signature`, with the
lexicographic order Python uses to sort tuples. -/
abbrev SigEntry : Type :=
  String ×ₗ String ×ₗ ℚ ×ₗ ℚ ×ₗ ℚ ×ₗ ℚ ×ₗ ℚ

/-- Quantize one `ShapeSpec` as `_build_signature` does: shape, color name,
start/target coordinates and size all rounded to one decimal. -/
def quantize (s : ShapeSpec) : SigEntry :=
  toLex (s.shape, toLex (s.color_name, toLex (round1 s.start.1,
    toLex (round1 s.start.2, toLex (round1 s.target.1,
      toLex (round1 s.target.2, round1 s.size))))))

/-- `",".join(map(str, item))` for one quantized entry. -/
def entry_str (e : SigEntry) : String :=
  let e1 := ofLex e
  let e2 := ofLex e1.2
  let e3 := ofLex e2.2
  let e4 := ofLex e3.2
  let e5 := ofLex e4.2
  let e6 := ofLex e5.2
  String.intercalate ","
    [e1.1, e2.1, toString e3.1, toString e4.1, toString e5.1,
     toString e6.1, toString e6.2]

/-- `_build_signature`: quantize every spec, sort the entries, and join them
behind the layout variant and the spec count. -/
def build_signature (specs : List ShapeSpec) (layout_variant : String) : String :=
  let quantized := specs.map quantize
  let sorted := List.insertionSort (· ≤ ·) quantized
  layout_variant ++ "|" ++ toString specs.length ++ "|" ++
    String.intercalate "|" (sorted.map entry_str)

/-! ### Uniqueness retry loop (generator.py, `_generate_task_data`).
`_create_specs` draws fresh randomness on every call; the successive results
are modelled by an oracle `gen : ℕ → List ShapeSpec × String` giving the
spec list and layout variant produced by the i-th call.  The returned dict's
`difficulty` / `num_shapes` entries are fixed pass-through values and are
omitted from the model. -/

/-- Signature of one generated (specs, layout variant) pair. -/
def signature_of (slv : List ShapeSpec × String) : String :=
  build_signature slv.1 slv.2

/-- The `for attempt in range(25)` loop of `_generate_task_data`:
`n` attempts remain and `k` calls to `_create_specs` were already made.
On an unseen signature the pair is returned with the signature recorded;
when the attempts are exhausted one further pair is generated and returned
without recording. -/
def try_attempts (gen : ℕ → List ShapeSpec × String) (seen : Finset String) :
    ℕ → ℕ → (List ShapeSpec × String) × Finset String
  | 0, k => (gen k, seen)
  | n + 1, k =>
      let slv := gen k
      let s := signature_of slv
      if s ∈ seen then try_attempts gen seen n (k + 1)
      else (slv, insert s seen)

/-- `_generate_task_data`: up to 25 uniqueness attempts, then one final
unrecorded generation.  Total on every input (never raises). -/
def generate_task_data (gen : ℕ → List ShapeSpec × String) (seen : Finset String) :
    (List ShapeSpec × String) × Finset String :=
  try_attempts gen seen 25 0

/-! ### Shape and color sampling (generator.py, `_sample_shapes` /
`_sample_colors`).  `random.sample(pop, k)` returns `k` items of `pop`
without replacement and `random.choices(pop, k)` returns `k` items with
replacement; both are modelled relationally. -/

/-- Relational model of `random.sample(population, k)` on a duplicate-free
population: any duplicate-free length-`k` selection from the population. -/
def sample_rel {α : Type} (population : List α) (k : ℕ) (res : List α) : Prop :=
  res.Nodup ∧ res.length = k ∧ res ⊆ population

/-- Relational model of `random.choices(population, k)`: any length-`k`
selection from the population, repeats allowed. -/
def choices_rel {α : Type} (population : List α) (k : ℕ) (res : List α) : Prop :=
  res.length = k ∧ res ⊆ population

/-- `_sample_shapes`: without replacement when `count ≤ len(SHAPES)`,
otherwise one full permutation of `SHAPES` followed by draws with
replacement. -/
def sample_shapes_rel (count : ℕ) (res : List String) : Prop :=
  if count ≤ SHAPES.length then sample_rel SHAPES count res
  else ∃ base extra, sample_rel SHAPES SHAPES.length base ∧
    choices_rel SHAPES (count - SHAPES.length) extra ∧ res = base ++ extra

/-- `_sample_colors`: same scheme over the color palette. -/
def sample_colors_rel (count : ℕ) (res : List (String × (ℕ × ℕ × ℕ))) : Prop :=
  if count ≤ COLORS.length then sample_rel COLORS count res
  else ∃ base extra, sample_rel COLORS COLORS.length base ∧
    choices_rel COLORS (count - COLORS.length) extra ∧ res = base ++ extra

/-! ### Position grids (generator.py, `_generate_positions`), with
`random.uniform(-jitter, jitter)` modelled by jitter oracles `jx jy : ℕ → ℚ`
giving the sample drawn for each index. -/

/-- `cell_w` of `_generate_positions` (columns already clamped to ≥ 1). -/
def grid_cell_w (columns : ℕ) (x_range : ℚ × ℚ) : ℚ :=
  (x_range.2 - x_range.1) / (max 1 columns)

/-- `rows = math.ceil(count / columns)` of `_generate_positions`. -/
def grid_rows (count columns : ℕ) : ℕ :=
  (count + max 1 columns - 1) / max 1 columns

/-- `cell_h` of `_generate_positions`. -/
def grid_cell_h (count columns : ℕ) (y_range : ℚ × ℚ) : ℚ :=
  (y_range.2 - y_range.1) / (grid_rows count columns : ℚ)

/-- The size returned by `_generate_positions`:
`min(90.0, cell_w * 0.55, cell_h * 0.55)`. -/
def positions_size (count columns : ℕ) (x_range y_range : ℚ × ℚ) : ℚ :=
  min 90 (min (grid_cell_w columns x_range * (55 / 100))
    (grid_cell_h count columns y_range * (55 / 100)))

/-- `_generate_positions`: positions of `count` items in a
`columns × ceil(count/columns)` grid over the given ranges, each cell
centered, with jitter added when `jitter > 0`; also returns the size. -/
def generate_positions (count columns : ℕ) (x_range y_range : ℚ × ℚ)
    (jitter : ℚ) (jx jy : ℕ → ℚ) : List (ℚ × ℚ) × ℚ :=
  let cols := max 1 columns
  let rows := grid_rows count columns
  let positions := (List.range count).map fun idx : ℕ =>
    let row := idx / cols
    let col := idx % cols
    let x := x_range.1 + ((col : ℚ) + 1 / 2) / (cols : ℚ) * (x_range.2 - x_range.1)
    let y := y_range.1 + ((row : ℚ) + 1 / 2) / (rows : ℚ) * (y_range.2 - y_range.1)
    if jitter > 0 then
      (x + jx idx * (x_range.2 - x_range.1), y + jy idx * (y_range.2 - y_range.1))
    else (x, y)
  (positions, positions_size count columns x_range y_range)

/-- The card region of `_create_specs`: x ∈ [0.12w, 0.4w], y ∈ [0.18h, 0.82h]. -/
def card_region (w h : ℚ) : (ℚ × ℚ) × (ℚ × ℚ) :=
  ((12 / 100 * w, 40 / 100 * w), (18 / 100 * h, 82 / 100 * h))

/-- The slot region of `_create_specs`: x ∈ [0.6w, 0.88w], y ∈ [0.18h, 0.82h]. -/
def slot_region (w h : ℚ) : (ℚ × ℚ) × (ℚ × ℚ) :=
  ((60 / 100 * w, 88 / 100 * w), (18 / 100 * h, 82 / 100 * h))

/-- `_create_specs`: choose the layout, generate card and slot positions,
take the minimum of the two returned sizes, and zip everything index-wise
into `ShapeSpec`s.  The sampled shape and color lists are passed in
(their generation is modelled by `sample_shapes_rel` / `sample_colors_rel`).
Returns the spec list and the layout variant. -/
def create_specs (w h : ℚ) (count : ℕ) (jxc jyc jxs jys : ℕ → ℚ)
    (shapes : List String) (colors : List (String × (ℕ × ℕ × ℕ))) :
    List ShapeSpec × String :=
  let layout_variant := choose_layout count
  let cards := generate_positions count (layout_columns layout_variant "cards")
    (card_region w h).1 (card_region w h).2
    (layout_jitter layout_variant "cards") jxc jyc
  let slots := generate_positions count (layout_columns layout_variant "slots")
    (slot_region w h).1 (slot_region w h).2
    (layout_jitter layout_variant "slots") jxs jys
  ((List.range count).map (fun i : ℕ =>
    { shape := shapes.getD i ""
      color_name := (colors.getD i ("", (0, 0, 0))).1
      color_rgb := (colors.getD i ("", (0, 0, 0))).2
      start := cards.1.getD i (0, 0)
      target := slots.1.getD i (0, 0)
      size := min cards.2 slots.2 }), layout_variant)

/-! ### Animation (generator.py, `_create_animation_frames` /
`_render_animation_frame`).  A rendered frame is modelled by the draw calls
it issues: the outline draws (stroked targets) and the filled card draws. -/

/-- One shape draw call: position, size, shape kind. -/
structure DrawnShape where
  pos : ℚ × ℚ
  size : ℚ
  shape : String
  deriving DecidableEq, Repr

/-- A rendered frame, as the list of outline draws and filled card draws
(in draw order). -/
structure RenderedFrame where
  outlines : List DrawnShape
  cards : List (DrawnShape × (ℕ × ℕ × ℕ))
  deriving DecidableEq, Repr

/-- Default card draw, used only as an unreachable `List.getD` default. -/
def no_draw : DrawnShape × (ℕ × ℕ × ℕ) := (⟨(0, 0), 0, ""⟩, (0, 0, 0))

/-- `ShapeSorterRenderer.render_start`: all target outlines, then all cards
filled at their start positions. -/
def render_start (specs : List ShapeSpec) : RenderedFrame :=
  { outlines := specs.map fun s => ⟨s.target, s.size, s.shape⟩
    cards := specs.map fun s => (⟨s.start, s.size, s.shape⟩, s.color_rgb) }

/-- `ShapeSorterRenderer.render_end`: no outlines, all cards filled at their
target positions. -/
def render_end (specs : List ShapeSpec) : RenderedFrame :=
  { outlines := []
    cards := specs.map fun s => (⟨s.target, s.size, s.shape⟩, s.color_rgb) }

/-- The interpolation progress of `_create_animation_frames`:
`i / (transition_frames - 1)` when `transition_frames > 1`, else `1.0`. -/
def interp_progress (i transition_frames : ℕ) : ℚ :=
  if transition_frames > 1 then (i : ℚ) / ((transition_frames : ℚ) - 1) else 1

/-- The interpolated position of the moving card at step `i`:
`start + (target - start) * progress`, per coordinate. -/
def interp_pos (s : ShapeSpec) (i transition_frames : ℕ) : ℚ × ℚ :=
  (s.start.1 + (s.target.1 - s.start.1) * interp_progress i transition_frames,
   s.start.2 + (s.target.2 - s.start.2) * interp_progress i transition_frames)

/-- `_render_animation_frame`: all target outlines, then every card filled —
cards before the moving one at `target`, the moving one at `current_pos`,
the rest at `start`. -/
def render_animation_frame (original_specs : List ShapeSpec)
    (moving_card_idx : ℕ) (current_pos : ℚ × ℚ) : RenderedFrame :=
  { outlines := original_specs.map fun s => ⟨s.target, s.size, s.shape⟩
    cards := original_specs.enum.map fun p =>
      let idx := p.1
      let spec := p.2
      let pos :=
        if idx < moving_card_idx then spec.target
        else if idx = moving_card_idx then current_pos
        else spec.start
      (⟨pos, spec.size, spec.shape⟩, spec.color_rgb) }

/-- `_create_animation_frames`: `hold_frames` copies of the start render,
then for each card in list order `transition_frames` interpolated frames,
then `hold_frames` copies of the end render. -/
def create_animation_frames (specs : List ShapeSpec)
    (hold_frames transition_frames : ℕ) : List RenderedFrame :=
  List.replicate hold_frames (render_start specs) ++
  specs.enum.flatMap (fun p =>
    (List.range transition_frames).map fun i =>
      render_animation_frame specs p.1 (interp_pos p.2 i transition_frames)) ++
  List.replicate hold_frames (render_end specs)

/-! ### C10 — prompt summary filters empty labels first -/

/-- C10: `format_shape_summary` first discards empty labels and selects the
sentence form from the number of remaining non-empty labels, not from the
input length: the result on any list equals the result on its non-empty
sublist; a list of only empty strings yields `""`, and `["", "red circle"]`
yields the one-label sentence. -/
theorem claim_C10_format_summary :
    (∀ labels : List String,
      format_shape_summary labels =
        format_shape_summary (labels.filter (fun l => l ≠ ""))) ∧
    format_shape_summary ["", ""] = "" ∧
    format_shape_summary ["", "red circle"] =
      "Match the red circle card to its outline." := by
  refine ⟨fun labels => ?_, rfl, rfl⟩
  simp only [format_shape_summary, List.filter_filter, Bool.and_self]

/-! ### C3 — layout lookup tables -/

/-- C3 counterexample: for the grid layout the slots-side jitter is `0.01`,
which is neither `0` nor half of the grid cards-side jitter (`0.005`). -/
theorem claim_C3_counterexample :
    layout_jitter "grid" "slots" = 1 / 100 ∧
    ¬(layout_jitter "grid" "slots" = 0 ∨
      layout_jitter "grid" "slots" = layout_jitter "grid" "cards" / 2) := by
  simp [layout_jitter]
  norm_num

/-- C3 (amended): scatter and grid use 2 columns on both sides with
cards-side jitter in [0.01, 0.03]; the scatter slots-side jitter is half the
scatter cards-side jitter, while the grid slots-side jitter equals the grid
cards-side jitter; staggered uses 2 columns for cards and 1 for slots. -/
theorem claim_C3_amended :
    layout_columns "scatter" "cards" = 2 ∧ layout_columns "scatter" "slots" = 2 ∧
    layout_columns "grid" "cards" = 2 ∧ layout_columns "grid" "slots" = 2 ∧
    layout_columns "staggered" "cards" = 2 ∧
    layout_columns "staggered" "slots" = 1 ∧
    1 / 100 ≤ layout_jitter "scatter" "cards" ∧
    layout_jitter "scatter" "cards" ≤ 3 / 100 ∧
    1 / 100 ≤ layout_jitter "grid" "cards" ∧
    layout_jitter "grid" "cards" ≤ 3 / 100 ∧
    layout_jitter "scatter" "slots" = layout_jitter "scatter" "cards" / 2 ∧
    layout_jitter "grid" "slots" = layout_jitter "grid" "cards" := by
  simp [layout_columns, layout_jitter]
  norm_num

/-! ### C2 — star geometry -/

/-- C2 counterexample: at center (0, 0) and size 2 the star's first vertex is
`(0, 1)` — the bottom of the bounding box in canvas coordinates (y grows
downward) — not `(0, -1)` as the claim's "top" would require. -/
theorem claim_C2_counterexample :
    (star_points 0 0 2).getD 0 (0, 0) = (0, 1) ∧
    ((0 : ℝ), (1 : ℝ)) ≠ ((0 : ℝ), 0 - 2 / 2) := by
  constructor
  · unfold star_points
    rw [getD_map_range _ _ _ _ (by norm_num)]
    norm_num [Real.cos_pi_div_two, Real.sin_pi_div_two]
  · intro h
    have h2 := congrArg Prod.snd h
    norm_num at h2

/-- C2 (amended): for every center and positive size, the star drawing
routine produces exactly 10 vertices; vertex `i` sits at angle
`π/2 + i·(π/5)` (36° steps) at distance `size/2` from the center for even
`i` and `0.45·(size/2)` for odd `i`; and the first vertex is at
`(cx, cy + size/2)` — the bottom of the bounding box in canvas coordinates
(where y grows downward), not the top. -/
theorem claim_C2_amended (x y size : ℝ) (_hsize : 0 < size) :
    (star_points x y size).length = 10 ∧
    (∀ i, i < 10 → (star_points x y size).getD i (0, 0) =
      (x + star_radius size i * Real.cos (Real.pi / 2 + (i : ℝ) * Real.pi / 5),
       y + star_radius size i * Real.sin (Real.pi / 2 + (i : ℝ) * Real.pi / 5))) ∧
    (∀ i, i < 10 →
      (((star_points x y size).getD i (0, 0)).1 - x) ^ 2 +
        (((star_points x y size).getD i (0, 0)).2 - y) ^ 2 =
        star_radius size i ^ 2) ∧
    (star_points x y size).getD 0 (0, 0) = (x, y + size / 2) := by
  have hvert : ∀ i, i < 10 → (star_points x y size).getD i (0, 0) =
      (x + star_radius size i * Real.cos (Real.pi / 2 + (i : ℝ) * Real.pi / 5),
       y + star_radius size i * Real.sin (Real.pi / 2 + (i : ℝ) * Real.pi / 5)) := by
    intro i hi
    unfold star_points star_radius
    rw [getD_map_range _ _ _ _ hi]
  refine ⟨by simp [star_points], hvert, fun i hi => ?_, ?_⟩
  · rw [hvert i hi]
    have key := Real.sin_sq_add_cos_sq (Real.pi / 2 + (i : ℝ) * Real.pi / 5)
    simp only
    nlinarith [key]
  · rw [hvert 0 (by norm_num)]
    norm_num [star_radius, Real.cos_pi_div_two, Real.sin_pi_div_two]

/-- C2 witness: the amended theorem applied at center (0, 0), size 2. -/
theorem claim_C2_amended_witness :
    (0 : ℝ) < 2 ∧ (star_points 0 0 2).length = 10 ∧
    (star_points 0 0 2).getD 0 (0, 0) = (0, 0 + 2 / 2) := by
  have h := claim_C2_amended 0 0 2 (by norm_num)
  exact ⟨by norm_num, h.1, h.2.2.2⟩

/-! ### C6 — signature order-independence -/

/-- C6: `_build_signature` is order-independent: on any permutation of the
spec list it produces the same string as on the original (the quantized
entries are sorted internally); equal inputs trivially give equal output
since the embedding is a pure function (the reflexive permutation). -/
theorem claim_C6_signature_perm :
    ∀ (specs1 specs2 : List ShapeSpec) (lv : String), specs1.Perm specs2 →
      build_signature specs1 lv = build_signature specs2 lv := by
  intro s1 s2 lv h
  have hq : (s1.map quantize).Perm (s2.map quantize) := h.map _
  have hs : List.insertionSort (· ≤ ·) (s1.map quantize) =
      List.insertionSort (· ≤ ·) (s2.map quantize) :=
    List.eq_of_perm_of_sorted
      (((List.perm_insertionSort _ _).trans hq).trans
        (List.perm_insertionSort _ _).symm)
      (List.sorted_insertionSort _ _) (List.sorted_insertionSort _ _)
  simp only [build_signature]
  rw [hs, h.length_eq]

/-- A first demonstration spec (red circle), shared by concrete witnesses. -/
def spec_a : ShapeSpec :=
  { shape := "circle", color_name := "red", color_rgb := (248, 113, 113),
    start := (100, 200), target := (620, 200), size := 80 }

/-- A second demonstration spec (blue square), shared by concrete witnesses. -/
def spec_b : ShapeSpec :=
  { shape := "square", color_name := "blue", color_rgb := (96, 165, 250),
    start := (100, 330), target := (620, 330), size := 80 }

/-- C6 witness: the theorem applied to a concrete two-spec list and its
swap. -/
theorem claim_C6_witness :
    ([spec_a, spec_b] : List ShapeSpec).Perm [spec_b, spec_a] ∧
    build_signature [spec_a, spec_b] "grid" =
      build_signature [spec_b, spec_a] "grid" := by
  have hp : ([spec_a, spec_b] : List ShapeSpec).Perm [spec_b, spec_a] :=
    List.Perm.swap spec_b spec_a []
  exact ⟨hp, claim_C6_signature_perm _ _ _ hp⟩

/-! ### C1 — uniqueness retry loop -/

theorem try_attempts_all_seen (gen : ℕ → List ShapeSpec × String)
    (seen : Finset String) :
    ∀ n k, (∀ i, i < n → signature_of (gen (k + i)) ∈ seen) →
      try_attempts gen seen n k = (gen (k + n), seen) := by
  intro n
  induction n with
  | zero => intro k _; simp [try_attempts]
  | succ m ih =>
      intro k hall
      have h0 : signature_of (gen k) ∈ seen := by
        simpa using hall 0 (Nat.succ_pos m)
      rw [try_attempts]
      simp only [h0, if_pos]
      have hshift : ∀ i, i < m → signature_of (gen (k + 1 + i)) ∈ seen := by
        intro i hi
        have := hall (i + 1) (by omega)
        simpa [Nat.add_assoc, Nat.add_comm 1 i] using this
      have he : k + (m + 1) = k + 1 + m := by omega
      rw [he]
      exact ih (k + 1) hshift

theorem try_attempts_first_unseen (gen : ℕ → List ShapeSpec × String)
    (seen : Finset String) :
    ∀ n k i0, i0 < n → signature_of (gen (k + i0)) ∉ seen →
      (∀ j, j < i0 → signature_of (gen (k + j)) ∈ seen) →
      try_attempts gen seen n k =
        (gen (k + i0), insert (signature_of (gen (k + i0))) seen) := by
  intro n
  induction n with
  | zero => intro k i0 h; exact absurd h (Nat.not_lt_zero i0)
  | succ m ih =>
      intro k i0 hi0 hun hprev
      cases i0 with
      | zero =>
          have h0 : signature_of (gen k) ∉ seen := by simpa using hun
          rw [try_attempts]
          simp [h0]
      | succ j0 =>
          have h0 : signature_of (gen k) ∈ seen := by
            simpa using hprev 0 (Nat.succ_pos j0)
          rw [try_attempts]
          simp only [h0, if_pos]
          have he : k + (j0 + 1) = k + 1 + j0 := by omega
          rw [he] at hun ⊢
          exact ih (k + 1) j0 (by omega) hun (fun j hj => by
            have := hprev (j + 1) (by omega)
            simpa [Nat.add_assoc, Nat.add_comm 1 j] using this)

/-- C1: `_generate_task_data` makes at most 25 attempts; it returns the
first attempt whose signature is not yet in the seen set, after inserting
that signature; if all 25 attempts collide it returns a freshly generated
26th pair and leaves the seen set unchanged.  The embedding is a total
function, so no error is ever raised. -/
theorem claim_C1_retry_loop :
    ∀ (gen : ℕ → List ShapeSpec × String) (seen : Finset String),
    ((∀ i, i < 25 → signature_of (gen i) ∈ seen) →
      generate_task_data gen seen = (gen 25, seen)) ∧
    (∀ i0, i0 < 25 → signature_of (gen i0) ∉ seen →
      (∀ j, j < i0 → signature_of (gen j) ∈ seen) →
      generate_task_data gen seen =
        (gen i0, insert (signature_of (gen i0)) seen)) := by
  intro gen seen
  constructor
  · intro hall
    have := try_attempts_all_seen gen seen 25 0
      (fun i hi => by simpa using hall i hi)
    simpa [generate_task_data] using this
  · intro i0 h1 h2 h3
    have := try_attempts_first_unseen gen seen 25 0 i0 h1 (by simpa using h2)
      (fun j hj => by simpa using h3 j hj)
    simpa [generate_task_data] using this

/-- C1 witness: with a fresh seen-set and a constant generator, the first
attempt is accepted and its signature recorded. -/
theorem claim_C1_witness :
    (0 < 25) ∧
    signature_of (([], "line") : List ShapeSpec × String) ∉ (∅ : Finset String) ∧
    generate_task_data (fun _ => ([], "line")) ∅ =
      ((([], "line") : List ShapeSpec × String),
        insert (signature_of (([], "line") : List ShapeSpec × String)) ∅) := by
  refine ⟨by norm_num, by simp, ?_⟩
  exact (claim_C1_retry_loop (fun _ => ([], "line")) ∅).2 0 (by norm_num)
    (by simp) (fun j hj => absurd hj (Nat.not_lt_zero j))

/-! ### C5 — interpolation boundaries -/

/-- A spec whose start and target differ, for the C5 counterexample. -/
def c5_spec : ShapeSpec :=
  { shape := "circle", color_name := "red", color_rgb := (248, 113, 113),
    start := (0, 0), target := (1, 1), size := 90 }

/-- C5 counterexample: with `transitionFrames = 1` the claim's range includes
i = 0, but progress is 1.0 there, so the single transition frame places the
card at its target, not at its start. -/
theorem claim_C5_counterexample :
    interp_pos c5_spec 0 1 = (1, 1) ∧ c5_spec.start = (0, 0) ∧
    ((1 : ℚ), (1 : ℚ)) ≠ ((0 : ℚ), (0 : ℚ)) := by
  refine ⟨?_, rfl, ?_⟩
  · norm_num [interp_pos, interp_progress, c5_spec]
  · intro hcontra
    have := congrArg Prod.fst hcontra
    norm_num at this

/-- C5 (amended): the interpolated position is
`start + (target - start) · progress` with `progress = i/(transitionFrames-1)`
when `transitionFrames ≥ 2` and `progress = 1.0` when `transitionFrames = 1`
(no division by zero); the position at step 0 equals `start` exactly whenever
`transitionFrames ≥ 2`, and the position at step `transitionFrames - 1`
equals `target` exactly for every `transitionFrames ≥ 1` (for
`transitionFrames = 1` the single step is at `target`, not at `start`). -/
theorem claim_C5_amended (s : ShapeSpec) (t : ℕ) :
    (2 ≤ t → interp_pos s 0 t = s.start) ∧
    (1 ≤ t → interp_pos s (t - 1) t = s.target) ∧
    interp_progress 0 1 = 1 ∧
    (2 ≤ t → ∀ i : ℕ, interp_progress i t = (i : ℚ) / ((t : ℚ) - 1)) := by
  refine ⟨?_, ?_, ?_, ?_⟩
  · intro ht
    have hgt : t > 1 := ht
    simp [interp_pos, interp_progress, hgt]
  · intro ht
    by_cases h1 : t = 1
    · subst h1
      simp only [interp_pos, interp_progress]
      norm_num
    · have hgt : t > 1 := by omega
      have hne : ((t : ℚ) - 1) ≠ 0 := by
        have : (2 : ℚ) ≤ (t : ℚ) := by exact_mod_cast hgt
        intro hz
        nlinarith
      simp only [interp_pos, interp_progress, if_pos hgt]
      rw [Nat.cast_sub ht]
      rw [Nat.cast_one, div_self hne]
      have h1 : s.start.1 + (s.target.1 - s.start.1) * 1 = s.target.1 := by ring
      have h2 : s.start.2 + (s.target.2 - s.start.2) * 1 = s.target.2 := by ring
      rw [h1, h2]
  · norm_num [interp_progress]
  · intro ht i
    simp [interp_progress, show t > 1 from ht]

/-- C5 witness: the amended theorem applied at a concrete spec with
`transitionFrames = 10`. -/
theorem claim_C5_witness :
    (2 : ℕ) ≤ 10 ∧ interp_pos spec_a 0 10 = spec_a.start ∧
    interp_pos spec_a (10 - 1) 10 = spec_a.target := by
  have hthm := claim_C5_amended spec_a 10
  exact ⟨by norm_num, hthm.1 (by norm_num), hthm.2.1 (by norm_num)⟩

/-! ### C4 — animation frame sequence -/

/-- Length of the transition block of `_create_animation_frames`:
`transition_frames` frames for each of the `specs.length` cards. -/
theorem length_flatMap_const {gam bet : Type} (t : ℕ) (g : gam → List bet)
    (hg : ∀ c, (g c).length = t) :
    ∀ l : List gam, (l.flatMap g).length = l.length * t := by
  intro l
  induction l with
  | nil => simp
  | cons c l ih =>
      rw [List.flatMap_cons, List.length_append, hg, ih, List.length_cons,
        Nat.succ_mul]
      omega

theorem transition_block_length (specs : List ShapeSpec) (t : ℕ) :
    (specs.enum.flatMap (fun p =>
      (List.range t).map fun i =>
        render_animation_frame specs p.1 (interp_pos p.2 i t))).length =
      specs.length * t := by
  rw [length_flatMap_const t _ (fun c => by simp), List.enum_length]

/-- C4: for a non-empty spec list, `holdFrames ≥ 0` and
`transitionFrames ≥ 1`, `_create_animation_frames` returns exactly
`2·holdFrames + numCards·transitionFrames` frames, beginning with
`holdFrames` copies of the start render and ending with `holdFrames` copies
of the end render. -/
theorem claim_C4_frame_count (specs : List ShapeSpec) (hold t : ℕ)
    (_hne : specs ≠ []) (_ht : 1 ≤ t) :
    (create_animation_frames specs hold t).length =
      2 * hold + specs.length * t ∧
    (create_animation_frames specs hold t).take hold =
      List.replicate hold (render_start specs) ∧
    (create_animation_frames specs hold t).drop (hold + specs.length * t) =
      List.replicate hold (render_end specs) := by
  refine ⟨?_, ?_, ?_⟩
  · simp only [create_animation_frames, List.length_append,
      List.length_replicate, transition_block_length]
    omega
  · rw [create_animation_frames, List.append_assoc]
    exact List.take_left' (by simp)
  · rw [create_animation_frames]
    have hlen : (List.replicate hold (render_start specs) ++
        specs.enum.flatMap (fun p => (List.range t).map fun i =>
          render_animation_frame specs p.1 (interp_pos p.2 i t))).length =
        hold + specs.length * t := by
      rw [List.length_append, List.length_replicate, transition_block_length]
    exact List.drop_left' hlen

/-- Four concrete specs, for the C4 witness. -/
def demo_specs : List ShapeSpec :=
  [spec_a, spec_b,
   { shape := "star", color_name := "green", color_rgb := (74, 222, 128),
     start := (200, 200), target := (520, 200), size := 80 },
   { shape := "diamond", color_name := "purple", color_rgb := (192, 132, 252),
     start := (200, 330), target := (520, 330), size := 80 }]

/-- C4 witness: for `holdFrames = 3`, `transitionFrames = 10` and 4 cards
the animation has 46 frames. -/
theorem claim_C4_witness :
    demo_specs ≠ [] ∧ (1 : ℕ) ≤ 10 ∧
    (create_animation_frames demo_specs 3 10).length = 46 := by
  refine ⟨by simp [demo_specs], by norm_num, ?_⟩
  have hthm := (claim_C4_frame_count demo_specs 3 10 (by simp [demo_specs])
    (by norm_num)).1
  simpa [demo_specs] using hthm

/-! ### C7 — shape and color sampling -/

/-- C7: for `count ≤ 6` the sampled shapes are pairwise distinct members of
the 6-shape vocabulary and the sampled colors pairwise distinct members of
the 6-color palette (with `count` elements each); for `count > 6` the first
6 elements of each result are a permutation of the full respective palette
and the remainder (of length `count - 6`) is drawn from the palette with
replacement. -/
theorem claim_C7_sampling (count : ℕ) (res_s : List String)
    (res_c : List (String × (ℕ × ℕ × ℕ)))
    (hs : sample_shapes_rel count res_s) (hc : sample_colors_rel count res_c) :
    (count ≤ 6 →
      res_s.Nodup ∧ res_s ⊆ SHAPES ∧ res_s.length = count ∧
      res_c.Nodup ∧ res_c ⊆ COLORS ∧ res_c.length = count) ∧
    (6 < count →
      (res_s.take 6).Perm SHAPES ∧ res_s.drop 6 ⊆ SHAPES ∧
      (res_s.drop 6).length = count - 6 ∧
      (res_c.take 6).Perm COLORS ∧ res_c.drop 6 ⊆ COLORS ∧
      (res_c.drop 6).length = count - 6) := by
  constructor
  · intro hle
    rw [sample_shapes_rel, if_pos (by simpa [SHAPES] using hle)] at hs
    rw [sample_colors_rel, if_pos (by simpa [COLORS] using hle)] at hc
    obtain ⟨hnd_s, hlen_s, hsub_s⟩ := hs
    obtain ⟨hnd_c, hlen_c, hsub_c⟩ := hc
    exact ⟨hnd_s, hsub_s, hlen_s, hnd_c, hsub_c, hlen_c⟩
  · intro hgt
    rw [sample_shapes_rel, if_neg (by simp [SHAPES]; omega)] at hs
    rw [sample_colors_rel, if_neg (by simp [COLORS]; omega)] at hc
    obtain ⟨base, extra, ⟨hbnd, hblen, hbsub⟩, ⟨helen, hesub⟩, rfl⟩ := hs
    obtain ⟨cb, ce, ⟨hcnd, hclen, hcsub⟩, ⟨hclen2, hcsub2⟩, rfl⟩ := hc
    have hblen6 : base.length = 6 := by simpa [SHAPES] using hblen
    have hclen6 : cb.length = 6 := by simpa [COLORS] using hclen
    rw [List.take_left' hblen6, List.drop_left' hblen6,
      List.take_left' hclen6, List.drop_left' hclen6]
    refine ⟨?_, hesub, by simpa [SHAPES] using helen, ?_, hcsub2,
      by simpa [COLORS] using hclen2⟩
    · exact (List.subperm_of_subset hbnd hbsub).perm_of_length_le
        (by simp [SHAPES, hblen6])
    · exact (List.subperm_of_subset hcnd hcsub).perm_of_length_le
        (by simp [COLORS, hclen6])

/-- C7 witness: the theorem applied at `count = 7` with the full palettes
followed by one repeated element. -/
theorem claim_C7_witness :
    sample_shapes_rel 7 (SHAPES ++ ["circle"]) ∧
    sample_colors_rel 7 (COLORS ++ [("red", (248, 113, 113))]) ∧ 6 < 7 ∧
    ((SHAPES ++ ["circle"]).take 6).Perm SHAPES ∧
    ((COLORS ++ [("red", (248, 113, 113))]).take 6).Perm COLORS := by
  have hs : sample_shapes_rel 7 (SHAPES ++ ["circle"]) := by
    rw [sample_shapes_rel, if_neg (by simp [SHAPES])]
    exact ⟨SHAPES, ["circle"], ⟨by decide, rfl, fun a ha => ha⟩,
      ⟨by simp [SHAPES], by simp [SHAPES]⟩, rfl⟩
  have hc : sample_colors_rel 7 (COLORS ++ [("red", (248, 113, 113))]) := by
    rw [sample_colors_rel, if_neg (by simp [COLORS])]
    exact ⟨COLORS, [("red", (248, 113, 113))], ⟨by decide, rfl, fun a ha => ha⟩,
      ⟨by simp [COLORS], by simp [COLORS]⟩, rfl⟩
  have hthm := claim_C7_sampling 7 _ _ hs hc
  exact ⟨hs, hc, by norm_num, (hthm.2 (by norm_num)).1,
    (hthm.2 (by norm_num)).2.2.2.1⟩

/-! ### C8 — uniform sizing invariant -/

theorem positions_size_le (count columns : ℕ) (xr yr : ℚ × ℚ) :
    positions_size count columns xr yr ≤ 90 ∧
    positions_size count columns xr yr ≤ grid_cell_w columns xr * (55 / 100) ∧
    positions_size count columns xr yr ≤ grid_cell_h count columns yr * (55 / 100) := by
  unfold positions_size
  exact ⟨min_le_left _ _,
    le_trans (min_le_right _ _) (min_le_left _ _),
    le_trans (min_le_right _ _) (min_le_right _ _)⟩

/-- C8: every spec produced by `_create_specs` carries the same size value,
namely the minimum of the sizes returned for the card region and the slot
region, and that value is ≤ 90 and ≤ 0.55 times the cell width and cell
height of both position grids. -/
theorem claim_C8_uniform_size (w h : ℚ) (count : ℕ) (jxc jyc jxs jys : ℕ → ℚ)
    (shapes : List String) (colors : List (String × (ℕ × ℕ × ℕ)))
    (_hcount : 1 ≤ count) :
    ∀ sp ∈ (create_specs w h count jxc jyc jxs jys shapes colors).1,
      sp.size =
        min (positions_size count (layout_columns (choose_layout count) "cards")
              (card_region w h).1 (card_region w h).2)
            (positions_size count (layout_columns (choose_layout count) "slots")
              (slot_region w h).1 (slot_region w h).2) ∧
      sp.size ≤ 90 ∧
      sp.size ≤ grid_cell_w (layout_columns (choose_layout count) "cards")
        (card_region w h).1 * (55 / 100) ∧
      sp.size ≤ grid_cell_h count (layout_columns (choose_layout count) "cards")
        (card_region w h).2 * (55 / 100) ∧
      sp.size ≤ grid_cell_w (layout_columns (choose_layout count) "slots")
        (slot_region w h).1 * (55 / 100) ∧
      sp.size ≤ grid_cell_h count (layout_columns (choose_layout count) "slots")
        (slot_region w h).2 * (55 / 100) := by
  intro sp hsp
  have hsize : sp.size =
      min (positions_size count (layout_columns (choose_layout count) "cards")
            (card_region w h).1 (card_region w h).2)
          (positions_size count (layout_columns (choose_layout count) "slots")
            (slot_region w h).1 (slot_region w h).2) := by
    simp only [create_specs, generate_positions] at hsp
    rcases List.mem_map.1 hsp with ⟨i, -, rfl⟩
    rfl
  refine ⟨hsize, ?_, ?_, ?_, ?_, ?_⟩ <;> rw [hsize]
  · exact le_trans (min_le_left _ _) (positions_size_le _ _ _ _).1
  · exact le_trans (min_le_left _ _) (positions_size_le _ _ _ _).2.1
  · exact le_trans (min_le_left _ _) (positions_size_le _ _ _ _).2.2
  · exact le_trans (min_le_right _ _) (positions_size_le _ _ _ _).2.1
  · exact le_trans (min_le_right _ _) (positions_size_le _ _ _ _).2.2

/-- C8 witness: the theorem applied to the first spec of a concrete task on
an 800×600 canvas with 4 shapes. -/
theorem claim_C8_witness :
    (1 : ℕ) ≤ 4 ∧
    ∃ sp ∈ (create_specs 800 600 4 (fun _ => 0) (fun _ => 0) (fun _ => 0)
        (fun _ => 0) (List.replicate 4 "circle")
        (List.replicate 4 ("red", (248, 113, 113)))).1,
      sp.size ≤ 90 ∧
      sp.size =
        min (positions_size 4 (layout_columns (choose_layout 4) "cards")
              (card_region 800 600).1 (card_region 800 600).2)
            (positions_size 4 (layout_columns (choose_layout 4) "slots")
              (slot_region 800 600).1 (slot_region 800 600).2) := by
  have hthm := claim_C8_uniform_size 800 600 4 (fun _ => 0) (fun _ => 0)
    (fun _ => 0) (fun _ => 0) (List.replicate 4 "circle")
    (List.replicate 4 ("red", (248, 113, 113))) (by norm_num)
  have hlen : (create_specs 800 600 4 (fun _ => 0) (fun _ => 0) (fun _ => 0)
      (fun _ => 0) (List.replicate 4 "circle")
      (List.replicate 4 ("red", (248, 113, 113)))).1.length = 4 := by
    simp [create_specs]
  have hmem : (create_specs 800 600 4 (fun _ => 0) (fun _ => 0) (fun _ => 0)
      (fun _ => 0) (List.replicate 4 "circle")
      (List.replicate 4 ("red", (248, 113, 113)))).1.getD 0 default_spec ∈
      (create_specs 800 600 4 (fun _ => 0) (fun _ => 0) (fun _ => 0)
      (fun _ => 0) (List.replicate 4 "circle")
      (List.replicate 4 ("red", (248, 113, 113)))).1 := by
    rw [List.getD_eq_getElem _ _ (by rw [hlen]; norm_num)]
    exact List.getElem_mem _
  have hsp := hthm _ hmem
  exact ⟨by norm_num, _, hmem, hsp.2.1, hsp.1⟩

/-! ### C9 — per-frame card placement -/

/-- Default rendered frame, used only as an unreachable `getD` default. -/
def no_frame : RenderedFrame := { outlines := [], cards := [] }

theorem getD_flatMap_map_range {gam bet : Type} (t : ℕ) (g : gam → ℕ → bet)
    (d : bet) (dc : gam) :
    ∀ (l : List gam) (k i : ℕ), k < l.length → i < t →
      (l.flatMap fun c => (List.range t).map (g c)).getD (k * t + i) d =
        g (l.getD k dc) i := by
  intro l
  induction l with
  | nil => intro k i hk _; exact absurd hk (Nat.not_lt_zero k)
  | cons c l ih =>
      intro k i hk hi
      cases k with
      | zero =>
          rw [List.flatMap_cons, Nat.zero_mul, Nat.zero_add,
            List.getD_append _ _ _ _ (by simpa using hi),
            getD_map_range t i (g c) d hi]
          rfl
      | succ k' =>
          rw [List.flatMap_cons,
            List.getD_append_right _ _ _ _
              (by simp [Nat.succ_mul]; omega)]
          simp only [List.length_map, List.length_range]
          have harith : (k' + 1) * t + i - t = k' * t + i := by
            rw [Nat.succ_mul]; omega
          rw [harith, List.getD_cons_succ]
          exact ih k' i (by simpa using hk) hi

theorem getD_enum {α : Type} (l : List α) (k : ℕ) (h : k < l.length)
    (d : ℕ × α) (dc : α) :
    l.enum.getD k d = (k, l.getD k dc) := by
  rw [List.getD_eq_getElem _ _ (by simpa using h), List.getElem_enum,
    List.getD_eq_getElem _ _ h]

/-- C9: in a transition frame with moving card `k`, every card with a
smaller index is drawn at its target, every card with a larger index at its
start, card `k` at the frame's current (interpolated) position, and the
outlines of all targets are drawn; moreover the animation's transition frame
for card `k` at step `i` is exactly such a frame with the interpolated
position of card `k`. -/
theorem claim_C9_moving_card (specs : List ShapeSpec) (k : ℕ) (pos : ℚ × ℚ)
    (hk : k < specs.length) :
    (render_animation_frame specs k pos).outlines =
      specs.map (fun s => ⟨s.target, s.size, s.shape⟩) ∧
    (∀ i, i < specs.length → i < k →
      (render_animation_frame specs k pos).cards.getD i no_draw =
        (⟨(specs.getD i default_spec).target, (specs.getD i default_spec).size,
          (specs.getD i default_spec).shape⟩,
         (specs.getD i default_spec).color_rgb)) ∧
    (render_animation_frame specs k pos).cards.getD k no_draw =
      (⟨pos, (specs.getD k default_spec).size,
        (specs.getD k default_spec).shape⟩,
       (specs.getD k default_spec).color_rgb) ∧
    (∀ i, i < specs.length → k < i →
      (render_animation_frame specs k pos).cards.getD i no_draw =
        (⟨(specs.getD i default_spec).start, (specs.getD i default_spec).size,
          (specs.getD i default_spec).shape⟩,
         (specs.getD i default_spec).color_rgb)) ∧
    (∀ hold t i, i < t →
      (create_animation_frames specs hold t).getD (hold + (k * t + i)) no_frame =
        render_animation_frame specs k
          (interp_pos (specs.getD k default_spec) i t)) := by
  refine ⟨rfl, ?_, ?_, ?_, ?_⟩
  · intro i hi hik
    simp only [render_animation_frame]
    rw [getD_map_enum specs i hi _ no_draw default_spec]
    simp [hik]
  · simp only [render_animation_frame]
    rw [getD_map_enum specs k hk _ no_draw default_spec]
    simp
  · intro i hi hki
    have h1 : ¬i < k := by omega
    have h2 : ¬i = k := by omega
    simp only [render_animation_frame]
    rw [getD_map_enum specs i hi _ no_draw default_spec]
    simp [h1, h2]
  · intro hold t i hit
    rw [create_animation_frames, List.append_assoc,
      List.getD_append_right _ _ _ _ (by simp)]
    simp only [List.length_replicate]
    rw [Nat.add_sub_cancel_left]
    have hlt : k * t + i < (specs.enum.flatMap fun p =>
        (List.range t).map fun j =>
          render_animation_frame specs p.1 (interp_pos p.2 j t)).length := by
      rw [transition_block_length]
      have h2 : (k + 1) * t ≤ specs.length * t := Nat.mul_le_mul_right t hk
      rw [Nat.succ_mul] at h2
      omega
    rw [List.getD_append _ _ _ _ hlt]
    have heq := getD_flatMap_map_range t
      (fun p j => render_animation_frame specs p.1 (interp_pos p.2 j t))
      no_frame ((0 : ℕ), default_spec) specs.enum k i (by simpa using hk) hit
    rw [getD_enum specs k hk _ default_spec] at heq
    exact heq

/-- C9 witness: the theorem applied to a two-card task with moving card 1. -/
theorem claim_C9_witness :
    1 < ([spec_a, spec_b] : List ShapeSpec).length ∧ (0 : ℕ) < 10 ∧
    (render_animation_frame [spec_a, spec_b] 1 (5, 5)).cards.getD 0 no_draw =
      (⟨([spec_a, spec_b].getD 0 default_spec).target,
        ([spec_a, spec_b].getD 0 default_spec).size,
        ([spec_a, spec_b].getD 0 default_spec).shape⟩,
       ([spec_a, spec_b].getD 0 default_spec).color_rgb) ∧
    (render_animation_frame [spec_a, spec_b] 1 (5, 5)).cards.getD 1 no_draw =
      (⟨(5, 5), ([spec_a, spec_b].getD 1 default_spec).size,
        ([spec_a, spec_b].getD 1 default_spec).shape⟩,
       ([spec_a, spec_b].getD 1 default_spec).color_rgb) ∧
    (create_animation_frames [spec_a, spec_b] 3 10).getD (3 + (1 * 10 + 0))
        no_frame =
      render_animation_frame [spec_a, spec_b] 1
        (interp_pos ([spec_a, spec_b].getD 1 default_spec) 0 10) := by
  have hthm := claim_C9_moving_card [spec_a, spec_b] 1 (5, 5) (by simp)
  exact ⟨by simp, by norm_num, hthm.2.1 0 (by simp) (by norm_num),
    hthm.2.2.1, hthm.2.2.2.2 3 10 0 (by norm_num)⟩
